import Mathlib

/-!
Verification development for the release-manager admin panel
(`src/admin_panel/app/main.py`).  The Python module is shallowly embedded:
pure helpers become Lean functions, the filesystem-backed state (release
store, `current` symlink, runtime logs) becomes an explicit `SysState`
record, and every subprocess / HTTP outcome that the code branches on is an
explicit field or parameter.  File contents that the code only copies or
compares are kept as abstract `String`s.
-/

namespace RelMgr

/-! ## Release-name sanitization (`safe_name`) -/

/-- The character whitelist of `safe_name`
(`"abcdefghijklmnopqrstuvwxyzABCDEFGHIJKLMNOPQRSTUVWXYZ0123456789_-"`). -/
def allowedChar (c : Char) : Bool :=
  (('a' ≤ c && c ≤ 'z') || ('A' ≤ c && c ≤ 'Z') || ('0' ≤ c && c ≤ '9')
    || c = '_' || c = '-')

/-- Characters removed from both ends by Python's `str.strip("_-")`. -/
def stripChar (c : Char) : Bool := c = '_' || c = '-'

/-- Models `safe_name` (main.py:63): keep only whitelisted characters, then strip
leading and trailing `_`/`-`. -/
def safe_name (name : String) : String :=
  let filtered := name.toList.filter allowedChar
  let stripped :=
    ((filtered.dropWhile stripChar).reverse.dropWhile stripChar).reverse
  String.mk stripped


/-! ## Canonical package names (`packaging`) -/

/-- One step of collapsing runs of `-`/`_`/`.` into a single `-`;
the boolean records whether the previous character was such a separator. -/
def isCNSep (c : Char) : Bool := c = '-' || c = '_' || c = '.'

def collapseCN : Bool → List Char → List Char
  | _, [] => []
  | inSep, c :: rest =>
    if isCNSep c then
      if inSep then collapseCN true rest else '-' :: collapseCN true rest
    else c.toLower :: collapseCN false rest

/-- Models `packaging.utils.canonicalize_name`:
`re.sub(r"[-_.]+", "-", name).lower()`. -/
def canonicalize_name (s : String) : String :=
  String.mk (collapseCN false s.toList)


/-- Characters PEP 508 allows inside a project name token
(letters, digits, `.`, `_`, `-`). -/
def nameChar (c : Char) : Bool := c.isAlphanum || c = '.' || c = '_' || c = '-'

/-- ASCII whitespace, as stripped by Python's `str.strip()`. -/
def isPyWS (c : Char) : Bool :=
  c = ' ' || c = '\t' || c = '\n' || c = '\r' || c = '\x0b' || c = '\x0c'

/-- Models Python `str.strip()` (no argument): trim whitespace at both
ends. -/
def pyStrip (s : String) : String :=
  String.mk (((s.toList.dropWhile isPyWS).reverse.dropWhile isPyWS).reverse)

/-- Models `packaging.requirements.Requirement(req).name` for the PEP 508
fragment this repository uses (`name`, optional `[extras]`, optional version
specifier): the name is the leading run of name characters, it must start and
end with an alphanumeric, and must be followed (after optional spaces) by
nothing, extras, or a version operator.  Returns `none` where the library
parser raises. -/
def parseReqName (req : String) : Option String :=
  let s := (pyStrip req).toList
  let nm := s.takeWhile nameChar
  let rest := s.drop nm.length
  match nm with
  | [] => none
  | c0 :: _ =>
    if !c0.isAlphanum then none
    else
      match nm.getLast? with
      | none => none
      | some cl =>
        if !cl.isAlphanum then none
        else
          match rest.dropWhile (· = ' ') with
          | [] => some (String.mk nm)
          | c :: _ =>
            if c = '[' || c = '=' || c = '>' || c = '<' || c = '~'
                || c = '!' || c = '(' then
              some (String.mk nm)
            else none

/-- Characters of `x` before the first occurrence of `sep`, or `none` when
`sep` does not occur (`x.split(sep, 1)` with a nonempty separator). -/
def beforeFirst (sep : List Char) : List Char → Option (List Char)
  | [] => none
  | c :: rest =>
    if sep.isPrefixOf (c :: rest) then some []
    else (beforeFirst sep rest).map (c :: ·)

/-- One step of the fallback in `req_to_pkg`:
`if sep in x: x = x.split(sep, 1)[0].strip()`. -/
def splitStrip (x sep : String) : String :=
  match beforeFirst sep.toList x.toList with
  | none => x
  | some before => pyStrip (String.mk before)

/-- Models `req_to_pkg` (main.py:1004): canonical package name of a requirement
string; `Requirement` parse first, manual stripping of version operators and
extras as fallback. -/
def req_to_pkg (req : String) : String :=
  match parseReqName req with
  | some n => canonicalize_name n
  | none =>
    let x := pyStrip req
    if x = "" then ""
    else
      let x1 := ["==", ">=", "<=", ">", "<", "~=", "!="].foldl splitStrip x
      let x2 := splitStrip x1 "["
      canonicalize_name x2


/-! ## Missing-dependency diff (`check_missing_in_release_venv`) -/

/-- The `seen`/`ordered` loop at the end of `check_missing_in_release_venv`:
keep the first occurrence of each string, preserving order. -/
def uniqueOrdered (seen : List String) : List String → List String
  | [] => []
  | r :: rest =>
    if r ∈ seen then uniqueOrdered seen rest
    else r :: uniqueOrdered (r :: seen) rest

/-- The set of installed distributions, from the stdout lines of the query
against the venv python: each line stripped, empties dropped, canonical
names. -/
def installedOf (queryLines : List String) : List String :=
  ((queryLines.map pyStrip).filter (· ≠ "")).map canonicalize_name

/-- Models `check_missing_in_release_venv` (main.py:690).  `venvPy` is whether
`<release>/.venv/bin/python` exists, `queryOk` whether the subprocess
listing the venv's distributions exited 0, and `queryLines` its stdout
lines. -/
def check_missing_in_release_venv (venvPy : Bool) (queryOk : Bool)
    (queryLines : List String) (pip_requirements : List String) :
    List String :=
  if pip_requirements = [] then []
  else if !venvPy then pip_requirements
  else if !queryOk then pip_requirements
  else
    let installed := installedOf queryLines
    let missing := pip_requirements.filter (fun req =>
      let pkg := req_to_pkg req
      pkg ≠ "" && !(installed.contains pkg))
    uniqueOrdered [] missing

/-! ## Data model: manifests, reports, releases -/

/-- Parse status of `release.json`: missing file, unparseable JSON, or the
fields this module reads (`service_type`, `dependencies.pip`,
`healthcheck.path`); `none` for an absent (or, for `pip`, non-list) key. -/
inductive RJson where
  | absent
  | invalid
  | parsed (serviceType : Option String) (pipDeps : Option (List String))
      (healthPath : Option String)
deriving Repr, DecidableEq

/-- A persisted `validation_report.json` as written by
`write_validation_report`: `ok`, `errors`, and the optional diagnostic
fields the validator and the install worker add.  The wall-clock
`timestamp_utc` field is outside the model, so equality of two `VReport`
values means "identical apart from the timestamp". -/
structure VReport where
  ok : Bool
  errors : List String
  venv : Option String := none
  pip_requirements : Option (List String) := none
  missing_deps : Option (List String) := none
  py_compile : Option String := none
  import_test : Option String := none
  pip_output : Option String := none
deriving Repr, DecidableEq

/-- The on-disk state of a release's `validation_report.json`. -/
inductive VReportFile where
  | absent
  | invalid
  | present (v : VReport)
deriving Repr, DecidableEq

/-- A progress snapshot (`.deps_install_progress.json`). -/
structure ProgressSnap where
  status : String
  progress : Nat
  message : String
deriving Repr, DecidableEq

/-- One release directory.  Files the code reads or writes are explicit
fields; the outcome of each subprocess the code runs against the release
(venv creation, pip tooling upgrade, distribution query, compile check and
the import check) is recorded as the exit status / output it would
produce. -/
structure Release where
  appPyExists : Bool := true
  appPy : String := ""
  initPyExists : Bool := true
  rjson : RJson := .absent
  vreport : VReportFile := .absent
  venvExists : Bool := false
  venvCreateOk : Bool := true
  venvCreateOut : String := ""
  pipUpgradeOk : Bool := true
  pipUpgradeOut : String := ""
  distQueryOk : Bool := true
  distQueryLines : List String := []
  compileOk : Bool := true
  compileOut : String := ""
  importOk : Bool := true
  importOut : String := ""
  depsProgress : Option ProgressSnap := none
deriving Repr, DecidableEq

/-- Models `RUNTIME_BASE_DEPS` (main.py:45): base dependencies implied by the
service type. -/
def RUNTIME_BASE_DEPS (serviceType : String) : List String :=
  if serviceType = "fastapi" then ["fastapi", "uvicorn"] else []

/-- Models `get_release_service_type` (main.py:981):
`(data.get("service_type") or "fastapi").lower()`, with `"fastapi"` for a
missing or unparseable `release.json`. -/
def get_release_service_type (r : Release) : String :=
  match r.rjson with
  | .parsed (some s) _ _ =>
      if s = "" then "fastapi" else String.mk (s.toList.map Char.toLower)
  | _ => "fastapi"

/-- Models `get_release_pip_requirements` (main.py:832): the `dependencies.pip`
list with each entry stripped and empties dropped; `[]` when the file is
missing, unparseable, or the key absent / not a list. -/
def get_release_pip_requirements (r : Release) : List String :=
  match r.rjson with
  | .parsed _ (some l) _ => (l.map pyStrip).filter (· ≠ "")
  | _ => []

/-- Models `get_required_pip_requirements` (main.py:991): base deps for the
service type followed by the user-declared deps. -/
def get_required_pip_requirements (r : Release) : List String :=
  RUNTIME_BASE_DEPS (get_release_service_type r) ++
    get_release_pip_requirements r

/-- Models `get_health_path` (main.py:634): `healthcheck.path or "/health"`,
prefixed with `/` when missing. -/
def get_health_path (r : Release) : String :=
  match r.rjson with
  | .parsed _ _ (some p) =>
      if p = "" then "/health"
      else if p.startsWith "/" then p else "/" ++ p
  | _ => "/health"

/-- Shorthand for the dependency diff of a release against its own venv. -/
def checkMissingRel (r : Release) : List String :=
  check_missing_in_release_venv r.venvExists r.distQueryOk r.distQueryLines
    (get_required_pip_requirements r)

/-! ## Validator (`ensure_release_venv`, `validate_release`) -/

/-- Models `ensure_release_venv` (main.py:880).  Returns the updated release
(`python3 -m venv` creates `.venv/bin/python` whenever it exits 0, even if
the subsequent pip tooling upgrade fails), the `ok` flag and the output. -/
def ensure_release_venv (r : Release) : Release × Bool × String :=
  if r.venvExists then (r, true, "venv exists")
  else if !r.venvCreateOk then (r, false, r.venvCreateOut)
  else if !r.pipUpgradeOk then
    ({ r with venvExists := true }, false,
      r.venvCreateOut ++ "\n" ++ r.pipUpgradeOut)
  else ({ r with venvExists := true }, true, r.pipUpgradeOut)

/-- Python `out[-1200:]`: the last 1200 characters of a diagnostic. -/
def lastChars (n : Nat) (s : String) : String :=
  String.mk ((s.toList.reverse.take n).reverse)

/-- Models `validate_release` (main.py:734): staged pipeline, each failure writes
the report and stops.  Returns the release with the new report persisted
(and the venv possibly created) together with the report itself. -/
def validate_release (r : Release) : Release × VReport :=
  let fileErrors :=
    (if !r.initPyExists then ["Missing service/__init__.py"] else []) ++
      (if !r.appPyExists then ["Missing service/app.py"] else [])
  if fileErrors ≠ [] then
    let rep : VReport := { ok := false, errors := fileErrors }
    ({ r with vreport := .present rep }, rep)
  else
    let (r1, okVenv, outVenv) := ensure_release_venv r
    if !okVenv then
      let rep : VReport :=
        { ok := false
          errors := ["Failed to create per-release venv"]
          venv := some outVenv }
      ({ r1 with vreport := .present rep }, rep)
    else if !r1.venvExists then
      let rep : VReport :=
        { ok := false
          errors := ["Release venv python not found"]
          venv := some outVenv }
      ({ r1 with vreport := .present rep }, rep)
    else
      let pipReqs := get_required_pip_requirements r1
      let missing := check_missing_in_release_venv r1.venvExists
        r1.distQueryOk r1.distQueryLines pipReqs
      if missing ≠ [] then
        let msg := "Missing dependencies (" ++ toString missing.length ++
          "): " ++ String.intercalate ", " missing
        let rep : VReport :=
          { ok := false
            errors := [msg]
            venv := some outVenv
            pip_requirements := some pipReqs
            missing_deps := some missing }
        ({ r1 with vreport := .present rep }, rep)
      else if !r1.compileOk then
        let rep : VReport :=
          { ok := false
            errors := ["py_compile failed"]
            venv := some outVenv
            pip_requirements := some pipReqs
            missing_deps := some missing
            py_compile := some (lastChars 1200 r1.compileOut) }
        ({ r1 with vreport := .present rep }, rep)
      else if !r1.importOk then
        let rep : VReport :=
          { ok := false
            errors := ["import service.app failed"]
            venv := some outVenv
            pip_requirements := some pipReqs
            missing_deps := some missing
            py_compile := some (lastChars 1200 r1.compileOut)
            import_test := some (lastChars 1200 r1.importOut) }
        ({ r1 with vreport := .present rep }, rep)
      else
        let rep : VReport :=
          { ok := true
            errors := []
            venv := some outVenv
            pip_requirements := some pipReqs
            missing_deps := some missing
            py_compile := some (lastChars 1200 r1.compileOut)
            import_test := some (lastChars 1200 r1.importOut) }
        ({ r1 with vreport := .present rep }, rep)

/-! ## System state and the deployment orchestrator -/

/-- A resolved absolute path, as produced by `Path.resolve()` on the
`current` reference: either a release directory `RELEASES/<name>`, or the
`CURRENT` path itself (what a raw non-symlink directory at `CURRENT`
resolves to). -/
inductive RPath where
  | rel (name : String)
  | currentPath
deriving Repr, DecidableEq

/-- The state of the `CURRENT` path: absent, a symlink to a resolved
target, or a stray raw directory left by an inconsistent prior state. -/
inductive CurrentRef where
  | absent
  | symlink (target : RPath)
  | rawdir
deriving Repr, DecidableEq

/-- Where an endpoint redirects (the HTTP 303 targets of the handlers). -/
inductive Redirect where
  | toAdmin
  | toReleases
  | toRelease
  | toInstall
deriving Repr, DecidableEq

/-- How a deploy request terminates: a 303 redirect to `/admin`, a 303
redirect to the release page, or an uncaught `NameError` (the module
references an undefined global `RUNTIME` on every path that writes
`last_deploy_error.txt`). -/
inductive DeployResult where
  | redirectAdmin
  | redirectRelease
  | nameError
deriving Repr, DecidableEq

/-- The whole observable state: the release store (association list of
directory name to release), whether the `releases/` root directory itself
exists, the `current` reference, the persisted
`runtime/logs/last_deploy_error.txt` record, and counters of the restart /
stop requests sent to the process manager. -/
structure SysState where
  releases : List (String × Release)
  releasesRootExists : Bool := true
  current : CurrentRef := .absent
  lastDeployError : Option String := none
  restartCount : Nat := 0
  stopCount : Nat := 0
deriving Repr, DecidableEq

/-- Association-list lookup of a release by directory name. -/
def findRel : List (String × Release) → String → Option Release
  | [], _ => none
  | (n, r) :: rest, m => if n = m then some r else findRel rest m

/-- Replace the release stored under `n`. -/
def setRel (n : String) (r : Release) :
    List (String × Release) → List (String × Release)
  | [] => []
  | (m, q) :: rest => if m = n then (m, r) :: rest else (m, q) :: setRel n r rest

/-- Models `CURRENT.exists()`: follows symlinks, so a dangling symlink (or a
symlink loop) does not exist. -/
def currentExists (s : SysState) : Bool :=
  match s.current with
  | .absent => false
  | .rawdir => true
  | .symlink (.rel n) => (findRel s.releases n).isSome
  | .symlink .currentPath => false

/-- Models `CURRENT.resolve()` under `CURRENT.exists()`. -/
def resolveCurrent (s : SysState) : Option RPath :=
  if currentExists s then
    match s.current with
    | .symlink t => some t
    | .rawdir => some .currentPath
    | .absent => none
  else none

/-- Whether `path.exists()` holds for a resolved path. -/
def rpathExists (s : SysState) : RPath → Bool
  | .rel n => (findRel s.releases n).isSome
  | .currentPath => currentExists s

/-- The guard `CURRENT.exists() and CURRENT.resolve() == target.resolve()`
for `target = RELEASES / rname`. -/
def activeIs (s : SysState) (rname : String) : Bool :=
  currentExists s &&
    match s.current with
    | .symlink (.rel m) => m = rname
    | _ => false

/-- The deploy validity guard (main.py:211): the persisted report must be
present, parseable, and have `ok == True`. -/
def reportOk (f : VReportFile) : Bool :=
  match f with
  | .present v => v.ok
  | _ => false

/-- One probe of `http_healthcheck`: success flag and diagnostic string. -/
abbrev Probe := Nat → Bool × String

/-- The health-gate loop of `deploy_release` (main.py:283): up to 3 probe
attempts, stopping at the first success; returns the final `ok, last_msg`. -/
def healthLoop (probes : Probe) : Bool × String :=
  let a0 := probes 0
  if a0.1 then a0
  else
    let a1 := probes 1
    if a1.1 then a1 else probes 2

/-- How many probe attempts the loop makes. -/
def healthAttempts (probes : Probe) : Nat :=
  if (probes 0).1 then 1 else if (probes 1).1 then 2 else 3

/-- Models `deploy_release` (main.py:199).  `probes` gives the outcome of each
successive health probe of the new release.

The module never defines a global `RUNTIME` (only `RUNTIME_BASE_DEPS`), so
every statement `(RUNTIME / "logs")...` raises `NameError`: the venv guard,
the missing-dependency guard, and the failure-record write after a failed
health gate all abort with an uncaught exception instead of persisting
`last_deploy_error.txt`.  (In the rollback branch the `NameError` raised at
the record write is caught by the surrounding `except`, whose own first
statement raises `NameError` again.)

For an input whose sanitized name is empty, `RELEASES / rname` degenerates
to the releases root; the model covers only genuine release names (the
lookup of `""` is `none`). -/
def deploy_release (s : SysState) (name : String) (probes : Probe) :
    SysState × DeployResult :=
  let rname := safe_name name
  match findRel s.releases rname with
  | none => (s, .redirectAdmin)
  | some rel =>
    -- is_valid: report present, parseable, and ok == True
    let is_valid := reportOk rel.vreport
    if !is_valid then (s, .redirectRelease)
    else if !rel.venvExists then
      -- EXTRA GUARD 1 would write the block record: NameError on RUNTIME
      (s, .nameError)
    else
      -- EXTRA GUARD 2: deploy-time dependency re-check (run() cannot fail
      -- here, the venv python was just checked, so the except-branch of the
      -- re-check is unreachable in the model)
      let missing := checkMissingRel rel
      if missing ≠ [] then (s, .nameError)
      else
        -- remember previous active release, swap the pointer, restart
        let prev : Option RPath := resolveCurrent s
        let s1 := { s with current := .symlink (.rel rname),
                           restartCount := s.restartCount + 1 }
        let gate := healthLoop probes
        if gate.1 then (s1, .redirectAdmin)
        else
          match prev with
          | some p =>
            if rpathExists s1 p then
              let s2 := { s1 with current := .symlink p,
                                  restartCount := s1.restartCount + 1 }
              -- failure-record write raises NameError, re-raised in except
              (s2, .nameError)
            else (s1, .nameError)
          | none => (s1, .nameError)

/-! ## Release store operations -/

/-- Models `delete_release` (main.py:350).  There is no empty-name guard: for an
input sanitizing to `""`, `target = RELEASES / ""` is the releases root, the
active check compares `CURRENT.resolve()` against the root (never equal, the
pointer only ever resolves to a release subdirectory or to `CURRENT`
itself), and `shutil.rmtree` removes the entire release store. -/
def delete_release (s : SysState) (name : String) : SysState × Redirect :=
  let rname := safe_name name
  if rname = "" then
    ({ s with releases := [], releasesRootExists := false }, .toAdmin)
  else if activeIs s rname then (s, .toAdmin)
  else
    ({ s with releases := s.releases.filter (fun p => p.1 ≠ rname) },
      .toAdmin)

/-- Models `update_main` (main.py:494): rewrite `service/app.py` and re-validate,
unless the release is missing or active. -/
def update_main (s : SysState) (name : String) (content : String) :
    SysState × Redirect :=
  let rname := safe_name name
  match findRel s.releases rname with
  | none => (s, .toReleases)
  | some rel =>
    if activeIs s rname then (s, .toRelease)
    else
      let rel1 := { rel with appPyExists := true, appPy := content }
      let rel2 := (validate_release rel1).1
      ({ s with releases := setRel rname rel2 s.releases }, .toRelease)

/-- Models `update_release_json` (main.py:516).  The raw body is abstracted to its
parse outcome: `contentValid` is whether `json.loads` succeeds and `parsed`
the resulting document. -/
def update_release_json (s : SysState) (name : String)
    (contentValid : Bool) (parsed : RJson) : SysState × Redirect :=
  let rname := safe_name name
  match findRel s.releases rname with
  | none => (s, .toReleases)
  | some rel =>
    if activeIs s rname then (s, .toRelease)
    else if !contentValid then
      let rep : VReport :=
        { ok := false, errors := ["release.json is not valid JSON"] }
      let rel1 := { rel with vreport := .present rep }
      ({ s with releases := setRel rname rel1 s.releases }, .toRelease)
    else
      let rel1 := { rel with rjson := parsed }
      let rel2 := (validate_release rel1).1
      ({ s with releases := setRel rname rel2 s.releases }, .toRelease)

/-! ## Cloning (`next_copy_name`, `clone_release`) -/

/-- Digit run to a number, as Python `int` on a decimal string. -/
def digitsToNat (l : List Char) : Nat :=
  l.foldl (fun acc c => acc * 10 + (c.toNat - 48)) 0

/-- Models the regex match and `int` conversion in `next_copy_name`: the numeric
suffix of `name` after the literal `pre`, when the remainder is a nonempty
all-digit string. -/
def copySuffixAux : List Char → List Char → Option Nat
  | [], rest =>
    if rest ≠ [] && rest.all Char.isDigit then some (digitsToNat rest)
    else none
  | _ :: _, [] => none
  | p :: ps, c :: cs => if c = p then copySuffixAux ps cs else none

def copySuffix (pre name : String) : Option Nat :=
  copySuffixAux pre.toList name.toList

/-- One step of the fold in `next_copy_name`:
`max_n = max(max_n, int(m.group(1)))` when the name matches, else
unchanged. -/
def suffStep (pre : String) (m : Nat) (n : String) : Nat :=
  match copySuffix pre n with
  | some k => max m k
  | none => m

/-- The fold in `next_copy_name` (main.py:806): maximum numeric suffix among
existing directories matching `<pre><digits>`, starting from 0. -/
def maxCopySuffix (names : List String) (pre : String) : Nat :=
  names.foldl (suffStep pre) 0

/-- Python `f"{n:03d}"`. -/
def pad3 (n : Nat) : String :=
  if n < 10 then "00" ++ toString n
  else if n < 100 then "0" ++ toString n
  else toString n

/-- Models `next_copy_name` (main.py:806). -/
def next_copy_name (names : List String) (rootExists : Bool)
    (base : String) : String :=
  let pre := base ++ "_copy_"
  let maxN := if rootExists then maxCopySuffix names pre else 0
  pre ++ pad3 (maxN + 1)

/-- Models `clone_release` (main.py:476): full directory copy of the source
release under the next copy name, then overwrite its validation report so
it starts not-yet-validated.  (As in `delete_release`, an input sanitizing
to `""` would degenerate to the releases root; the model covers genuine
release names.) -/
def clone_release (s : SysState) (name : String) : SysState × Redirect :=
  let rname := safe_name name
  match findRel s.releases rname with
  | none => (s, .toReleases)
  | some src =>
    let newName := next_copy_name (s.releases.map Prod.fst)
      s.releasesRootExists rname
    let rep : VReport :=
      { ok := false
        errors := ["Cloned release (requires validation after edits)"] }
    let cloned := { src with vreport := .present rep }
    ({ s with releases := s.releases ++ [(newName, cloned)] }, .toRelease)

/-! ## Dependency installer with progress
(`install_missing_deps_with_progress`) -/

/-- An observable event of one installation run: a progress snapshot
written to the durable record, or one `pip install` attempt. -/
inductive InstallEvent where
  | snap (p : ProgressSnap)
  | attempt (req : String) (ok : Bool)
deriving Repr, DecidableEq

def isAttemptEv : InstallEvent → Bool
  | .attempt _ _ => true
  | .snap _ => false

/-- The progress snapshots published during a run, in order. -/
def snapsOf (t : List InstallEvent) : List ProgressSnap :=
  t.filterMap fun e =>
    match e with
    | .snap p => some p
    | .attempt _ _ => none

/-- Models `int((i / total) * 100)` (main.py:939).  The float arithmetic is exact
at every value exercised in this development; for such values it equals
this natural floor division. -/
def pctOf (i total : Nat) : Nat := (i * 100) / total

/-- The per-package loop of `install_missing_deps_with_progress`
(main.py:938): for the `i`-th package (1-based), publish a `running`
snapshot at `pct = int((i/total)*100)` naming the package, then attempt the
install; on failure publish an `error` snapshot at the same `pct` and stop;
after the last success publish the terminal `done` snapshot. -/
def installLoop (results : Nat → Bool) (total : Nat) :
    Nat → List String → List InstallEvent
  | _, [] => [.snap ⟨"done", 100, "Dependencies installed"⟩]
  | i, req :: rest =>
    let pct := pctOf i total
    let msg := "Installing " ++ req ++ " (" ++ toString i ++ "/" ++
      toString total ++ ")..."
    let pre : InstallEvent := .snap ⟨"running", pct, msg⟩
    if results i then
      pre :: .attempt req true :: installLoop results total (i + 1) rest
    else
      [pre, .attempt req false,
        .snap ⟨"error", pct, "Failed installing " ++ req⟩]

/-- Models `install_missing_deps_with_progress` (main.py:916) as the list of
events of one run.  `results i` is the exit status of the `pip install` of
the `i`-th attempted package (1-based). -/
def install_missing_deps_with_progress (r : Release)
    (results : Nat → Bool) : List InstallEvent :=
  let ensured := ensure_release_venv r
  let r1 := ensured.1
  if !ensured.2.1 then
    [.snap ⟨"error", 0, "Venv error: " ++ ensured.2.2⟩]
  else
    let missing := checkMissingRel r1
    if missing = [] then
      [.snap ⟨"done", 100, "No missing dependencies"⟩]
    else
      .snap ⟨"running", 0,
          "Installing " ++ toString missing.length ++ " packages..."⟩ ::
        installLoop results missing.length 1 missing

/-! ## Canonical archive (`build_canonical_zip`, `download_release`) -/

/-- One file inside a release directory: relative path components and
content. -/
structure FileEntry where
  path : List String
  content : String
deriving Repr, DecidableEq

/-- Models `build_canonical_zip` (main.py:118): walk every file under the release
directory and archive it, skipping any file whose base name is
`release_bundle.zip` (`rel.name` is the base name, so the exclusion applies
at every depth, not only to the archive itself). -/
def build_canonical_zip (tree : List FileEntry) : List FileEntry :=
  tree.filter fun f => !(f.path.getLast? == some "release_bundle.zip")

/-- The state `download_release` operates on: the (non-archive) files of
the release directory, and the stored `release_bundle.zip` if present. -/
structure ReleaseDir where
  tree : List FileEntry
  bundle : Option (List FileEntry) := none
deriving Repr, DecidableEq

/-- Models `download_release` (main.py:341): build the archive only when it is
missing, then serve whatever `release_bundle.zip` now holds. -/
def download_release (d : ReleaseDir) : ReleaseDir × List FileEntry :=
  match d.bundle with
  | some b => (d, b)
  | none =>
    let b := build_canonical_zip d.tree
    ({ d with bundle := some b }, b)

/-! ## Trace predicates for the installer -/

/-- After a failed attempt no further install attempt occurs. -/
def noAttemptAfterFail : List InstallEvent → Bool
  | [] => true
  | .attempt _ false :: rest => rest.all (fun e => !isAttemptEv e)
  | _ :: rest => noAttemptAfterFail rest

/-- Every attempt event is immediately preceded by a `running` snapshot. -/
def attemptsPreceded : List InstallEvent → Bool
  | [] => true
  | [_] => true
  | e1 :: e2 :: rest =>
    (if isAttemptEv e2 then
        (match e1 with
          | .snap p => p.status == "running"
          | .attempt _ _ => false)
      else true) && attemptsPreceded (e2 :: rest)

/-- The claim's reading of a published `running` snapshot at position `j`:
its percentage equals `completed/total` at the moment of publication, where
`completed` is the number of install attempts that precede it. -/
def snapReflects (t : List InstallEvent) (total j : Nat) : Bool :=
  match t[j]? with
  | some (.snap p) =>
    if p.status == "running" then
      p.progress == pctOf ((t.take j).filter isAttemptEv).length total
    else true
  | _ => true

/-- The claim that each per-package snapshot is published after that package's install
attempt with percentage = completed/total": every published running
snapshot reflects the number of completed attempts at its publish point. -/
def snapshotsReflectCompleted (t : List InstallEvent) (total : Nat) : Prop :=
  ∀ j, j < t.length → snapReflects t total j = true

/-! ## Concrete scenario states used by the claim theorems -/

/-- A store of two ordinary releases with no active pointer, used to
exhibit the behavior of `delete_release` on an empty sanitized name. -/
def storeDemo : SysState := { releases := [("r1", {}), ("r2", {})] }

/-- A release directory whose stored archive is stale (the tree has moved
to `v2` but the bundle still holds `v1`) and which contains a nested file
named `release_bundle.zip`. -/
def staleDir : ReleaseDir :=
  { tree := [⟨["service", "app.py"], "v2"⟩,
      ⟨["nested", "release_bundle.zip"], "junk"⟩]
    bundle := some [⟨["service", "app.py"], "v1"⟩] }

/-- The store used to exhibit the clone naming scenario:
`r` exists together with copies `001` and `003`. -/
def cloneDemo : SysState :=
  { releases := [("r", {}), ("r_copy_001", {}), ("r_copy_003", {})] }

/-- The release produced by cloning a default release: a full copy whose
validation report is overwritten with the not-yet-validated marker. -/
def clonedRel : Release :=
  { vreport := .present
      { ok := false
        errors := ["Cloned release (requires validation after edits)"] } }

/-- A store holding one release whose persisted report has `ok = false`. -/
def c1Rel : Release :=
  { vreport := .present { ok := false, errors := ["Missing service/app.py"] } }

def c1Demo : SysState := { releases := [("b", c1Rel)] }

def c3Demo : SysState :=
  { releases := [("a", {})], current := .symlink (.rel "a") }

/-- A fully deployable release: report `ok`, venv present, base deps
installed in the venv. -/
def relLive : Release :=
  { vreport := .present { ok := true, errors := [] }
    venvExists := true
    distQueryLines := ["fastapi", "uvicorn"] }

/-- Release `a` is active, release `b` is installed and ready. -/
def c2State : SysState :=
  { releases := [("a", relLive), ("b", relLive)]
    current := .symlink (.rel "a") }

def probesDown : Probe := fun _ => (false, "connection refused")

/-- A release whose first validation partially creates the runtime:
`python3 -m venv` succeeds (so `.venv/bin/python` appears) but the pip
tooling upgrade fails, making `ensure_release_venv` report failure. -/
def c6Rel : Release :=
  { venvExists := false
    pipUpgradeOk := false
    rjson := .parsed (some "other") none none }

def c6Demo : Release :=
  { venvExists := true, rjson := .parsed (some "other") none none }

/-- A release with one declared (and missing) dependency `p1` and an
existing venv, driving a one-package installation run. -/
def c5Rel : Release :=
  { venvExists := true, rjson := .parsed (some "other") (some ["p1"]) none }

/-! ## Helper lemmas -/

theorem pctOf_mono (total : Nat) {i j : Nat} (h : i ≤ j) :
    pctOf i total ≤ pctOf j total :=
  Nat.div_le_div_right (Nat.mul_le_mul_right 100 h)

theorem pctOf_le_100 {i total : Nat} (h : i ≤ total) (ht : 0 < total) :
    pctOf i total ≤ 100 := by
  have htop : pctOf total total = 100 := by
    unfold pctOf
    exact Nat.mul_div_cancel_left 100 ht
  calc pctOf i total ≤ pctOf total total := pctOf_mono total h
    _ = 100 := htop

theorem head?_dropWhile_not (p : Char → Bool) :
    ∀ (l : List Char) (c : Char), (l.dropWhile p).head? = some c →
      p c = false := by
  intro l
  induction l with
  | nil => intro c h; simp [List.dropWhile] at h
  | cons a t ih =>
    intro c h
    rw [List.dropWhile_cons] at h
    by_cases hp : p a
    · rw [if_pos hp] at h; exact ih c h
    · rw [if_neg hp] at h
      simp only [List.head?_cons, Option.some.injEq] at h
      subst h
      exact Bool.of_not_eq_true hp

theorem getLast?_dropWhile_of_ne_nil (p : Char → Bool) (l : List Char)
    (h : l.dropWhile p ≠ []) : (l.dropWhile p).getLast? = l.getLast? := by
  conv_rhs => rw [← List.takeWhile_append_dropWhile (p := p) (l := l)]
  exact (List.getLast?_append_of_ne_nil _ h).symm

theorem uniqueOrdered_sublist (l : List String) :
    ∀ seen, (uniqueOrdered seen l).Sublist l := by
  induction l with
  | nil => intro seen; simp [uniqueOrdered]
  | cons r rest ih =>
    intro seen
    simp only [uniqueOrdered]
    by_cases hr : r ∈ seen
    · rw [if_pos hr]; exact (ih seen).cons r
    · rw [if_neg hr]; exact (ih (r :: seen)).cons₂ r

theorem mem_uniqueOrdered (x : String) (l : List String) :
    ∀ seen, x ∈ uniqueOrdered seen l ↔ x ∈ l ∧ x ∉ seen := by
  induction l with
  | nil => intro seen; simp [uniqueOrdered]
  | cons r rest ih =>
    intro seen
    simp only [uniqueOrdered]
    by_cases hr : r ∈ seen
    · rw [if_pos hr, ih seen]
      constructor
      · rintro ⟨hx, hs⟩; exact ⟨List.mem_cons_of_mem r hx, hs⟩
      · rintro ⟨hx, hs⟩
        rcases List.mem_cons.mp hx with rfl | hx
        · exact absurd hr hs
        · exact ⟨hx, hs⟩
    · rw [if_neg hr]
      simp only [List.mem_cons, ih (r :: seen), List.mem_cons]
      constructor
      · rintro (rfl | ⟨hx, hs⟩)
        · exact ⟨Or.inl rfl, hr⟩
        · exact ⟨Or.inr hx, fun hxs => hs (Or.inr hxs)⟩
      · rintro ⟨rfl | hx, hs⟩
        · exact Or.inl rfl
        · by_cases hxr : x = r
          · exact Or.inl hxr
          · exact Or.inr ⟨hx, fun hxs => (hxs.elim hxr hs)⟩

theorem uniqueOrdered_nodup (l : List String) :
    ∀ seen, (uniqueOrdered seen l).Nodup := by
  induction l with
  | nil => intro seen; simp [uniqueOrdered]
  | cons r rest ih =>
    intro seen
    simp only [uniqueOrdered]
    by_cases hr : r ∈ seen
    · rw [if_pos hr]; exact ih seen
    · rw [if_neg hr]
      refine List.nodup_cons.mpr ⟨fun hmem => ?_, ih (r :: seen)⟩
      exact ((mem_uniqueOrdered r rest (r :: seen)).mp hmem).2 (List.mem_cons_self r seen)

/-! ## Claim theorems -/

/-- Claim C10: `safe_name` never returns a string beginning or ending with
`_` or `-`; an input consisting only of underscores and hyphens sanitizes
to the empty string although every one of its characters is whitelisted. -/
theorem c10_safe_name_strips_edge_separators :
    ∀ (name : String) (c : Char),
      (((safe_name name).toList.head? = some c → c ≠ '_' ∧ c ≠ '-') ∧
        ((safe_name name).toList.getLast? = some c → c ≠ '_' ∧ c ≠ '-')) ∧
      safe_name "__--__" = "" := by
  intro name c
  have hchar : ∀ d : Char, stripChar d = false → d ≠ '_' ∧ d ≠ '-' := by
    intro d hd
    simp only [stripChar, Bool.or_eq_false_iff, decide_eq_false_iff_not] at hd
    exact hd
  refine ⟨⟨?_, ?_⟩, by decide⟩
  · intro hhead
    set A := (name.toList.filter allowedChar).dropWhile stripChar with hA
    set B := A.reverse.dropWhile stripChar with hB
    have hlist : (safe_name name).toList = B.reverse := rfl
    rw [hlist, List.head?_reverse] at hhead
    have hBne : B ≠ [] := by
      intro hnil; rw [hnil] at hhead; simp at hhead
    rw [hB, getLast?_dropWhile_of_ne_nil stripChar A.reverse (hB ▸ hBne),
      List.getLast?_reverse] at hhead
    exact hchar c (head?_dropWhile_not stripChar _ c hhead)
  · intro hlast
    set A := (name.toList.filter allowedChar).dropWhile stripChar with hA
    set B := A.reverse.dropWhile stripChar with hB
    have hlist : (safe_name name).toList = B.reverse := rfl
    rw [hlist, List.getLast?_reverse] at hlast
    exact hchar c (head?_dropWhile_not stripChar _ c hlast)

/-- Closed instance of the C10 theorem at a concrete input. -/
theorem c10_witness :
    safe_name "_ab-" = "ab" ∧ ('a' ≠ '_' ∧ 'a' ≠ '-') := by
  refine ⟨by decide, ?_⟩
  exact ((c10_safe_name_strips_edge_separators "_ab-" 'a').1.1 (by decide))

/-- Claim C9 (code bug): `delete_release` has no empty-name guard.  For the
input `"..."` (sanitized name `""`), `target = RELEASES / ""` is the
releases root itself and `shutil.rmtree` deletes the entire release store,
even though `safe_name` did produce an empty result that the claim says
must be rejected with no mutation. -/
theorem c9_empty_sanitized_delete_wipes_store :
    safe_name "..." = "" ∧
    (delete_release storeDemo "...").1.releases = [] ∧
    (delete_release storeDemo "...").1.releasesRootExists = false ∧
    (delete_release storeDemo "...").2 = .toAdmin := by
  refine ⟨by decide, ?_, ?_, ?_⟩ <;> rfl

/-- Claim C4, counterexample: with the isolated runtime missing, the diff
returns the declared list verbatim, duplicates included — not the
de-duplicated `["a>=1", "b"]` the claim promises for that case. -/
theorem c4_counterexample_venv_missing_not_deduped :
    check_missing_in_release_venv false true [] ["a>=1", "b", "a>=1"] =
      ["a>=1", "b", "a>=1"] ∧
    ¬ (check_missing_in_release_venv false true []
        ["a>=1", "b", "a>=1"]).Nodup := by
  constructor
  · rfl
  · decide

/-- Claim C4, amended: when the isolated runtime exists and the
distribution query succeeds, `check_missing_in_release_venv` returns an
ordered, de-duplicated sublist of the declared requirements containing
exactly the missing ones, and on `["a>=1","b","a>=1"]` against an empty
installed set it yields `["a>=1","b"]`; when the runtime is missing the
declared list is returned verbatim (duplicates included). -/
theorem c4_missing_diff_ordered_deduped (queryLines reqs : List String) :
    (check_missing_in_release_venv true true queryLines reqs).Nodup ∧
    (check_missing_in_release_venv true true queryLines reqs).Sublist reqs ∧
    (∀ x, x ∈ check_missing_in_release_venv true true queryLines reqs ↔
      x ∈ reqs ∧ req_to_pkg x ≠ "" ∧
        ¬ (installedOf queryLines).contains (req_to_pkg x)) ∧
    check_missing_in_release_venv true true [] ["a>=1", "b", "a>=1"] =
      ["a>=1", "b"] ∧
    check_missing_in_release_venv false true queryLines reqs =
      (if reqs = [] then [] else reqs) := by
  by_cases hnil : reqs = []
  · subst hnil
    refine ⟨by simp [check_missing_in_release_venv],
      by simp [check_missing_in_release_venv],
      by simp [check_missing_in_release_venv], by decide,
      by simp [check_missing_in_release_venv]⟩
  · have hform : check_missing_in_release_venv true true queryLines reqs =
        uniqueOrdered [] (reqs.filter (fun req =>
          req_to_pkg req ≠ "" && !((installedOf queryLines).contains
            (req_to_pkg req)))) := by
      simp [check_missing_in_release_venv, hnil]
    refine ⟨?_, ?_, ?_, by decide, by simp [check_missing_in_release_venv, hnil]⟩
    · rw [hform]; exact uniqueOrdered_nodup _ []
    · rw [hform]
      exact (uniqueOrdered_sublist _ []).trans (List.filter_sublist reqs)
    · intro x
      rw [hform, mem_uniqueOrdered]
      simp only [List.mem_filter, List.not_mem_nil, not_false_iff, and_true]
      constructor
      · rintro ⟨hx, hp⟩
        simp only [Bool.and_eq_true, Bool.not_eq_true', decide_eq_true_eq,
          ne_eq] at hp
        refine ⟨hx, ?_, ?_⟩
        · simpa using hp.1
        · simpa using hp.2
      · rintro ⟨hx, hne, hcon⟩
        refine ⟨hx, ?_⟩
        simp only [Bool.and_eq_true, Bool.not_eq_true', decide_eq_true_eq]
        exact ⟨by simpa using hne, by simpa using hcon⟩

/-- Closed instance of the C4 theorem at a concrete input. -/
theorem c4_witness :
    ("a>=1" ∈ check_missing_in_release_venv true true [] ["a>=1", "b", "a>=1"]) =
      ("a>=1" ∈ (["a>=1", "b", "a>=1"] : List String) ∧ req_to_pkg "a>=1" ≠ "" ∧
        ¬ (installedOf []).contains (req_to_pkg "a>=1")) := by
  have h := (c4_missing_diff_ordered_deduped [] ["a>=1", "b", "a>=1"]).2.2.1 "a>=1"
  exact propext h

/-- Claim C7, counterexample: `download_release` serves a stale archive as-is
and performs no rebuild (rebuild happens only when the archive is
*missing*), and `build_canonical_zip` excludes every file named
`release_bundle.zip` at any depth, not only the archive itself. -/
theorem c7_counterexample_stale_archive_served :
    (download_release staleDir).2 ≠ build_canonical_zip staleDir.tree ∧
    (download_release staleDir).1 = staleDir ∧
    (⟨["nested", "release_bundle.zip"], "junk"⟩ : FileEntry) ∈ staleDir.tree ∧
    (⟨["nested", "release_bundle.zip"], "junk"⟩ : FileEntry) ∉
      build_canonical_zip staleDir.tree := by
  refine ⟨by decide, rfl, by decide, by decide⟩

/-- Claim C7, amended: the canonical archive is the deterministic filter of
the release tree dropping every file whose base name is
`release_bundle.zip`; `download_release` rebuilds it only when it is
missing, and serves a present archive unchanged even if stale. -/
theorem c7_archive_build_and_lazy_rebuild :
    (∀ (d : ReleaseDir) (b : List FileEntry), d.bundle = some b →
      download_release d = (d, b)) ∧
    (∀ d : ReleaseDir, d.bundle = none →
      download_release d =
        ({ d with bundle := some (build_canonical_zip d.tree) },
          build_canonical_zip d.tree)) ∧
    (∀ (tree : List FileEntry) (e : FileEntry),
      e ∈ build_canonical_zip tree ↔
        e ∈ tree ∧ e.path.getLast? ≠ some "release_bundle.zip") := by
  refine ⟨?_, ?_, ?_⟩
  · intro d b hb
    cases d with
    | mk tree bundle => cases hb; rfl
  · intro d hb
    cases d with
    | mk tree bundle => cases hb; rfl
  · intro tree e
    simp only [build_canonical_zip, List.mem_filter, Bool.not_eq_true',
      beq_eq_false_iff_ne, ne_eq]

/-- Closed instance of the C7 theorem at a concrete input. -/
theorem c7_witness :
    download_release { tree := [], bundle := some [] } =
      ({ tree := [], bundle := some [] }, ([] : List FileEntry)) :=
  c7_archive_build_and_lazy_rebuild.1 { tree := [], bundle := some [] } [] rfl

theorem le_foldl_suffStep (pre : String) :
    ∀ (names : List String) (init : Nat),
      init ≤ names.foldl (suffStep pre) init := by
  intro names
  induction names with
  | nil => intro init; simp
  | cons n rest ih =>
    intro init
    rw [List.foldl_cons]
    refine le_trans ?_ (ih (suffStep pre init n))
    unfold suffStep
    cases copySuffix pre n <;> simp

theorem suffix_le_foldl (pre : String) :
    ∀ (names : List String) (init : Nat) (m : String) (j : Nat),
      m ∈ names → copySuffix pre m = some j →
      j ≤ names.foldl (suffStep pre) init := by
  intro names
  induction names with
  | nil => intro _ _ _ hm; simp at hm
  | cons n rest ih =>
    intro init m j hm hj
    rw [List.foldl_cons]
    rcases List.mem_cons.mp hm with rfl | hm'
    · refine le_trans ?_ (le_foldl_suffStep pre rest (suffStep pre init m))
      unfold suffStep
      rw [hj]
      exact le_max_right _ _
    · exact ih (suffStep pre init n) m j hm' hj

/-- Claim C8: every existing numeric copy suffix is at most the fold's
maximum, the produced name is `<base>_copy_<max+1>` (3-digit padded), and
cloning `r` while `r_copy_001` and `r_copy_003` exist appends
`r_copy_004`, marked not-yet-validated. -/
theorem c8_clone_names_max_suffix_plus_one :
    (∀ (names : List String) (base m : String) (j : Nat),
      m ∈ names → copySuffix (base ++ "_copy_") m = some j →
      j ≤ maxCopySuffix names (base ++ "_copy_")) ∧
    (∀ (names : List String) (base : String),
      next_copy_name names true base =
        (base ++ "_copy_") ++
          pad3 (maxCopySuffix names (base ++ "_copy_") + 1)) ∧
    clone_release cloneDemo "r" =
      ({ cloneDemo with
          releases := cloneDemo.releases ++ [("r_copy_004", clonedRel)] },
        .toRelease) := by
  refine ⟨?_, ?_, ?_⟩
  · intro names base m j hm hj
    exact suffix_le_foldl (base ++ "_copy_") names 0 m j hm hj
  · intro names base
    rfl
  · rfl

/-- Closed instance of the C8 theorem at a concrete input. -/
theorem c8_witness :
    3 ≤ maxCopySuffix ["r_copy_003"] ("r" ++ "_copy_") :=
  c8_clone_names_max_suffix_plus_one.1 ["r_copy_003"] "r" "r_copy_003" 3
    (by decide) (by decide)

/-- Claim C1: a deploy rejected by any precondition — validation report not
`ok` (absent, unparseable, or `ok != true`), missing per-release venv, or a
non-empty deploy-time missing-dependency re-check — leaves the whole state,
and in particular the ActivePointer, unchanged. -/
theorem c1_rejected_deploy_preserves_pointer (s : SysState) (name : String)
    (probes : Probe) (rel : Release)
    (hrel : findRel s.releases (safe_name name) = some rel)
    (hguard : reportOk rel.vreport = false ∨ rel.venvExists = false ∨
      checkMissingRel rel ≠ []) :
    (deploy_release s name probes).1 = s ∧
    (deploy_release s name probes).1.current = s.current := by
  have hmain : (deploy_release s name probes).1 = s := by
    simp only [deploy_release, hrel]
    rcases hguard with h | h | h
    · simp [h]
    · by_cases hv : reportOk rel.vreport <;> simp [hv, h]
    · by_cases hv : reportOk rel.vreport
      · by_cases hw : rel.venvExists
        · simp [hv, hw, h]
        · simp [hv, hw]
      · simp [hv]
  exact ⟨hmain, by rw [hmain]⟩

/-- Closed instance of the C1 theorem at a concrete input. -/
theorem c1_witness :
    (deploy_release c1Demo "b" (fun _ => (false, ""))).1 = c1Demo ∧
    (deploy_release c1Demo "b" (fun _ => (false, ""))).1.current =
      c1Demo.current :=
  c1_rejected_deploy_preserves_pointer c1Demo "b" (fun _ => (false, ""))
    c1Rel (by decide) (Or.inl (by decide))

/-- Claim C3: delete, update-main-source, and update-release-json are no-ops
on the release the ActivePointer references: the returned state is the
input state, so the release's files and the pointer are untouched. -/
theorem c3_active_release_ops_are_noops (s : SysState)
    (name content : String) (contentValid : Bool) (parsed : RJson)
    (rel : Release)
    (hne : safe_name name ≠ "")
    (hrel : findRel s.releases (safe_name name) = some rel)
    (hcur : s.current = .symlink (.rel (safe_name name))) :
    (delete_release s name).1 = s ∧
    (update_main s name content).1 = s ∧
    (update_release_json s name contentValid parsed).1 = s := by
  have hact : activeIs s (safe_name name) = true := by
    simp [activeIs, currentExists, hcur, hrel]
  refine ⟨?_, ?_, ?_⟩
  · simp [delete_release, hne, hact]
  · simp [update_main, hrel, hact]
  · simp [update_release_json, hrel, hact]

/-- Closed instance of the C3 theorem at a concrete input. -/
theorem c3_witness :
    (delete_release c3Demo "a").1 = c3Demo ∧
    (update_main c3Demo "a" "x = 1").1 = c3Demo ∧
    (update_release_json c3Demo "a" true .absent).1 = c3Demo :=
  c3_active_release_ops_are_noops c3Demo "a" "x = 1" true .absent {}
    (by decide) (by decide) (by decide)

/-- Claim C2 (code bug): deploying `b` while `a` is active, with every probe
failing, makes exactly 3 attempts, repoints the ActivePointer back to `a`
and re-requests a restart (restart count 2), and leaves `b` installed but
not active — but no failure record is persisted: the write references the
undefined global `RUNTIME`, so the request aborts with an uncaught
`NameError` and `last_deploy_error.txt` is never written. -/
theorem c2_failed_healthgate_rolls_back_without_record :
    deploy_release c2State "b" probesDown =
      ({ c2State with current := .symlink (.rel "a"), restartCount := 2 },
        .nameError) ∧
    healthAttempts probesDown = 3 ∧
    (deploy_release c2State "b" probesDown).1.lastDeployError = none ∧
    findRel (deploy_release c2State "b" probesDown).1.releases "b" =
      some relLive ∧
    activeIs (deploy_release c2State "b" probesDown).1 "b" = false := by
  refine ⟨?_, rfl, ?_, ?_, ?_⟩ <;> rfl

/-- Claim C6, counterexample: validating `c6Rel` twice with no external file
changes gives `ok = false` (`Failed to create per-release venv`) and then
`ok = true` — the first run's own partial venv creation changes the
verdict, so the two reports do not have identical `ok`/`errors`. -/
theorem c6_counterexample_partial_venv_creation :
    (validate_release c6Rel).2.ok = false ∧
    (validate_release (validate_release c6Rel).1).2.ok = true ∧
    (validate_release c6Rel).2.errors ≠
      (validate_release (validate_release c6Rel).1).2.errors := by
  refine ⟨rfl, rfl, by decide⟩

/-- With the venv already present, validation only rewrites the report. -/
theorem c6_state_shape (r : Release) (h : r.venvExists = true) :
    ∃ rep, validate_release r = ({ r with vreport := .present rep }, rep) := by
  obtain ⟨aE, aC, iE, rj, vr, vE, vcOk, vcOut, puOk, puOut, dqOk, dqL,
    cOk, cOut, imOk, imOut, dp⟩ := r
  simp only at h
  subst h
  simp only [validate_release, ensure_release_venv]
  split_ifs <;> exact ⟨_, rfl⟩

/-- The report produced by validation does not depend on the previously
persisted report (for a release whose venv exists). -/
theorem c6_report_indep (aE : Bool) (aC : String) (iE : Bool) (rj : RJson)
    (vr vr' : VReportFile) (vcOk : Bool) (vcOut : String) (puOk : Bool)
    (puOut : String) (dqOk : Bool) (dqL : List String) (cOk : Bool)
    (cOut : String) (imOk : Bool) (imOut : String)
    (dp : Option ProgressSnap) :
    (validate_release ⟨aE, aC, iE, rj, vr, true, vcOk, vcOut, puOk, puOut,
      dqOk, dqL, cOk, cOut, imOk, imOut, dp⟩).2 =
    (validate_release ⟨aE, aC, iE, rj, vr', true, vcOk, vcOut, puOk, puOut,
      dqOk, dqL, cOk, cOut, imOk, imOut, dp⟩).2 := by
  have e1 : ensure_release_venv ⟨aE, aC, iE, rj, vr, true, vcOk, vcOut,
      puOk, puOut, dqOk, dqL, cOk, cOut, imOk, imOut, dp⟩ =
      (⟨aE, aC, iE, rj, vr, true, vcOk, vcOut, puOk, puOut, dqOk, dqL,
        cOk, cOut, imOk, imOut, dp⟩, true, "venv exists") := by
    simp [ensure_release_venv]
  have e2 : ensure_release_venv ⟨aE, aC, iE, rj, vr', true, vcOk, vcOut,
      puOk, puOut, dqOk, dqL, cOk, cOut, imOk, imOut, dp⟩ =
      (⟨aE, aC, iE, rj, vr', true, vcOk, vcOut, puOk, puOut, dqOk, dqL,
        cOk, cOut, imOk, imOut, dp⟩, true, "venv exists") := by
    simp [ensure_release_venv]
  simp only [validate_release, e1, e2, get_required_pip_requirements,
    get_release_service_type, get_release_pip_requirements]

/-- Claim C6, amended: for a release whose isolated runtime already exists,
validation only rewrites the report (every other part of the release is
unchanged), and a second run with no changes in between produces an
identical report — identical `ok`, `errors`, and diagnostics, differing
only in the unmodelled wall-clock timestamp. -/
theorem c6_validation_idempotent_when_venv_exists (r : Release)
    (h : r.venvExists = true) :
    (validate_release r).1 =
      { r with vreport := .present (validate_release r).2 } ∧
    (validate_release ((validate_release r).1)).2 =
      (validate_release r).2 := by
  obtain ⟨rep, hrep⟩ := c6_state_shape r h
  have h1 : (validate_release r).1 =
      { r with vreport := .present (validate_release r).2 } := by
    rw [hrep]
  refine ⟨h1, ?_⟩
  rw [h1]
  obtain ⟨aE, aC, iE, rj, vr, vE, vcOk, vcOut, puOk, puOut, dqOk, dqL,
    cOk, cOut, imOk, imOut, dp⟩ := r
  simp only at h
  subst h
  exact c6_report_indep aE aC iE rj (.present (validate_release _).2) vr
    vcOk vcOut puOk puOut dqOk dqL cOk cOut imOk imOut dp

/-- Closed instance of the C6 theorem at a concrete input. -/
theorem c6_witness :
    (validate_release (validate_release c6Demo).1).2 =
      (validate_release c6Demo).2 :=
  (c6_validation_idempotent_when_venv_exists c6Demo rfl).2

theorem snapsOf_nil : snapsOf [] = [] := rfl

theorem snapsOf_cons_snap (p : ProgressSnap) (t : List InstallEvent) :
    snapsOf (.snap p :: t) = p :: snapsOf t := by
  simp [snapsOf]

theorem snapsOf_cons_att (req : String) (ok : Bool)
    (t : List InstallEvent) :
    snapsOf (.attempt req ok :: t) = snapsOf t := by
  simp [snapsOf]

theorem installLoop_ne_nil (results : Nat → Bool) (total : Nat)
    (i : Nat) (rest : List String) :
    installLoop results total i rest ≠ [] := by
  cases rest with
  | nil => simp [installLoop]
  | cons r rs =>
    simp only [installLoop]
    split <;> simp

theorem installLoop_head_snap (results : Nat → Bool) (total : Nat)
    (i : Nat) (rest : List String) :
    ∃ p, (installLoop results total i rest).head? = some (.snap p) := by
  cases rest with
  | nil => exact ⟨_, rfl⟩
  | cons r rs =>
    simp only [installLoop]
    split <;> exact ⟨_, rfl⟩

theorem installLoop_progs_head (results : Nat → Bool) (total i : Nat)
    (r : String) (rs : List String) :
    (((snapsOf (installLoop results total i (r :: rs))).map
      (fun p => p.progress))).head? = some (pctOf i total) := by
  simp only [installLoop]
  split <;> rw [snapsOf_cons_snap] <;> simp

theorem installLoop_chain (results : Nat → Bool) (total : Nat) :
    ∀ (rest : List String) (i : Nat), 1 ≤ i →
      i + rest.length = total + 1 →
      ((snapsOf (installLoop results total i rest)).map
        (fun p => p.progress)).Chain' (· ≤ ·) := by
  intro rest
  induction rest with
  | nil => intro i hge hinv; simp [installLoop, snapsOf]
  | cons r rs ih =>
    intro i hge hinv
    simp only [List.length_cons] at hinv
    have htot : 0 < total := by omega
    have hi_le : i ≤ total := by omega
    simp only [installLoop]
    by_cases hres : results i
    · rw [if_pos hres]
      have hchain := ih (i + 1) (by omega) (by omega)
      rw [snapsOf_cons_snap, snapsOf_cons_att, List.map_cons]
      refine List.chain'_cons'.mpr ⟨?_, hchain⟩
      intro y hy
      cases rs with
      | nil =>
        simp [installLoop, snapsOf] at hy
        subst hy
        exact pctOf_le_100 hi_le htot
      | cons r2 rs2 =>
        rw [installLoop_progs_head results total (i + 1) r2 rs2] at hy
        simp at hy
        subst hy
        exact pctOf_mono total (Nat.le_succ i)
    · rw [if_neg hres]
      rw [snapsOf_cons_snap, snapsOf_cons_att, snapsOf_cons_snap,
        snapsOf_nil]
      simp [List.chain'_cons]

theorem installLoop_last (results : Nat → Bool) (total : Nat) :
    ∀ (rest : List String) (i : Nat),
      ∃ p, (installLoop results total i rest).getLast? = some (.snap p) ∧
        ((p.status = "done" ∧ p.progress = 100) ∨ p.status = "error") := by
  intro rest
  induction rest with
  | nil =>
    intro i
    exact ⟨_, rfl, Or.inl ⟨rfl, rfl⟩⟩
  | cons r rs ih =>
    intro i
    simp only [installLoop]
    by_cases hres : results i
    · rw [if_pos hres]
      obtain ⟨p, hp, hterm⟩ := ih (i + 1)
      refine ⟨p, ?_, hterm⟩
      have hsplit : (InstallEvent.snap ⟨"running", pctOf i total,
          "Installing " ++ r ++ " (" ++ toString i ++ "/" ++
            toString total ++ ")..."⟩) ::
          (InstallEvent.attempt r true) ::
            installLoop results total (i + 1) rs =
          [InstallEvent.snap ⟨"running", pctOf i total,
            "Installing " ++ r ++ " (" ++ toString i ++ "/" ++
              toString total ++ ")..."⟩,
            InstallEvent.attempt r true] ++
            installLoop results total (i + 1) rs := rfl
      rw [hsplit, List.getLast?_append_of_ne_nil _
        (installLoop_ne_nil results total (i + 1) rs)]
      exact hp
    · rw [if_neg hres]
      exact ⟨_, rfl, Or.inr rfl⟩

theorem installLoop_noAttemptAfterFail (results : Nat → Bool)
    (total : Nat) :
    ∀ (rest : List String) (i : Nat),
      noAttemptAfterFail (installLoop results total i rest) = true := by
  intro rest
  induction rest with
  | nil => intro i; rfl
  | cons r rs ih =>
    intro i
    simp only [installLoop]
    by_cases hres : results i
    · rw [if_pos hres]
      simpa [noAttemptAfterFail] using ih (i + 1)
    · rw [if_neg hres]
      simp [noAttemptAfterFail, List.all_cons, isAttemptEv]

theorem installLoop_attemptsPreceded (results : Nat → Bool)
    (total : Nat) :
    ∀ (rest : List String) (i : Nat),
      attemptsPreceded (installLoop results total i rest) = true := by
  intro rest
  induction rest with
  | nil => intro i; rfl
  | cons r rs ih =>
    intro i
    simp only [installLoop]
    by_cases hres : results i
    · rw [if_pos hres]
      obtain ⟨p, hp⟩ := installLoop_head_snap results total (i + 1) rs
      rcases hL : installLoop results total (i + 1) rs with _ | ⟨e0, ls⟩
      · exact absurd hL (installLoop_ne_nil results total (i + 1) rs)
      · rw [hL] at hp
        simp only [List.head?_cons, Option.some.injEq] at hp
        subst hp
        have hIH := ih (i + 1)
        rw [hL] at hIH
        simp [attemptsPreceded, isAttemptEv, hIH]
    · rw [if_neg hres]
      simp [attemptsPreceded, isAttemptEv]

/-- Claim C5, counterexample: in the one-package run for `c5Rel`, the snapshot
naming `p1` is published at index 1 with percentage 100 *before* the
attempt at index 2, at a moment when 0 of 1 packages are completed — so the
published running snapshots do not carry `completed/total`. -/
theorem c5_counterexample_snapshot_before_attempt :
    ¬ snapshotsReflectCompleted
        (install_missing_deps_with_progress c5Rel (fun _ => true)) 1 ∧
    (install_missing_deps_with_progress c5Rel (fun _ => true))[1]? =
      some (.snap ⟨"running", 100, "Installing p1 (1/1)..."⟩) ∧
    (install_missing_deps_with_progress c5Rel (fun _ => true))[2]? =
      some (.attempt "p1" true) := by
  refine ⟨?_, by decide, by decide⟩
  intro hclaim
  have h1 := hclaim 1 (by decide)
  revert h1
  decide

/-- Claim C5, amended: within one installation run the published progress
values are non-decreasing; the terminal snapshot is exactly `done` at 100
or `error` (at the percentage of the failing package); after a failed
attempt no further attempt occurs; each attempt is immediately preceded by
a `running` snapshot naming the package — published *before* (not after)
the attempt, with percentage `i/total` counting the in-progress package;
and the run's first event is a snapshot, never an attempt. -/
theorem c5_progress_trace_properties (r : Release) (results : Nat → Bool) :
    ((snapsOf (install_missing_deps_with_progress r results)).map
      (fun p => p.progress)).Chain' (· ≤ ·) ∧
    (∃ p, (install_missing_deps_with_progress r results).getLast? =
        some (.snap p) ∧
      ((p.status = "done" ∧ p.progress = 100) ∨ p.status = "error")) ∧
    noAttemptAfterFail (install_missing_deps_with_progress r results) =
      true ∧
    attemptsPreceded (install_missing_deps_with_progress r results) =
      true ∧
    (∀ e, (install_missing_deps_with_progress r results).head? = some e →
      isAttemptEv e = false) := by
  rcases hE : ensure_release_venv r with ⟨r1, ok, msg⟩
  rcases Bool.eq_false_or_eq_true ok with hok | hok
  swap
  · subst hok
    have ht : install_missing_deps_with_progress r results =
        [.snap ⟨"error", 0, "Venv error: " ++ msg⟩] := by
      simp [install_missing_deps_with_progress, hE]
    rw [ht]
    refine ⟨by simp [snapsOf], ⟨_, rfl, Or.inr rfl⟩, rfl, rfl, ?_⟩
    intro e he
    simp only [List.head?_cons, Option.some.injEq] at he
    subst he
    rfl
  · subst hok
    by_cases hm : checkMissingRel r1 = []
    · have ht : install_missing_deps_with_progress r results =
          [.snap ⟨"done", 100, "No missing dependencies"⟩] := by
        simp [install_missing_deps_with_progress, hE, hm]
      rw [ht]
      refine ⟨by simp [snapsOf], ⟨_, rfl, Or.inl ⟨rfl, rfl⟩⟩, rfl, rfl, ?_⟩
      intro e he
      simp only [List.head?_cons, Option.some.injEq] at he
      subst he
      rfl
    · have ht : install_missing_deps_with_progress r results =
          .snap ⟨"running", 0,
            "Installing " ++ toString (checkMissingRel r1).length ++
              " packages..."⟩ ::
            installLoop results (checkMissingRel r1).length 1
              (checkMissingRel r1) := by
        simp [install_missing_deps_with_progress, hE, hm]
      rw [ht]
      have hinv : 1 + (checkMissingRel r1).length =
          (checkMissingRel r1).length + 1 := by omega
      refine ⟨?_, ?_, ?_, ?_, ?_⟩
      · rw [snapsOf_cons_snap, List.map_cons]
        refine List.chain'_cons'.mpr ⟨fun y _ => Nat.zero_le y, ?_⟩
        exact installLoop_chain results (checkMissingRel r1).length
          (checkMissingRel r1) 1 (le_refl 1) hinv
      · obtain ⟨p, hp, hterm⟩ :=
          installLoop_last results (checkMissingRel r1).length
            (checkMissingRel r1) 1
        refine ⟨p, ?_, hterm⟩
        rw [show (InstallEvent.snap ⟨"running", 0,
            "Installing " ++ toString (checkMissingRel r1).length ++
              " packages..."⟩) ::
            installLoop results (checkMissingRel r1).length 1
              (checkMissingRel r1) =
          [InstallEvent.snap ⟨"running", 0,
            "Installing " ++ toString (checkMissingRel r1).length ++
              " packages..."⟩] ++
            installLoop results (checkMissingRel r1).length 1
              (checkMissingRel r1) from rfl,
          List.getLast?_append_of_ne_nil _
            (installLoop_ne_nil results (checkMissingRel r1).length 1
              (checkMissingRel r1))]
        exact hp
      · simpa [noAttemptAfterFail] using
          installLoop_noAttemptAfterFail results
            (checkMissingRel r1).length (checkMissingRel r1) 1
      · obtain ⟨p, hp⟩ := installLoop_head_snap results
          (checkMissingRel r1).length 1 (checkMissingRel r1)
        rcases hL : installLoop results (checkMissingRel r1).length 1
            (checkMissingRel r1) with _ | ⟨e0, ls⟩
        · exact absurd hL (installLoop_ne_nil results
            (checkMissingRel r1).length 1 (checkMissingRel r1))
        · rw [hL] at hp
          simp only [List.head?_cons, Option.some.injEq] at hp
          subst hp
          have hIH := installLoop_attemptsPreceded results
            (checkMissingRel r1).length (checkMissingRel r1) 1
          rw [hL] at hIH
          simp [attemptsPreceded, isAttemptEv, hIH]
      · intro e he
        simp only [List.head?_cons, Option.some.injEq] at he
        subst he
        rfl

/-- Closed instance of the C5 theorem at a concrete input. -/
theorem c5_witness :
    isAttemptEv (.snap ⟨"running", 0, "Installing 1 packages..."⟩) =
      false :=
  (c5_progress_trace_properties c5Rel (fun _ => true)).2.2.2.2
    (.snap ⟨"running", 0, "Installing 1 packages..."⟩) (by decide)

end RelMgr
